import Mathlib

/-!
Verification of the loan-calculator amortization engine (the `LoanCalculator`
module of this repository).  The JavaScript engine is shallowly embedded over
`ℚ`: every numeric value carried by the engine becomes an exact rational, and
JavaScript's `Math.round` becomes Mathlib's `round : ℚ → ℤ` (both compute
`⌊x + 1/2⌋`).  The `isFinite`/`NaN` guards of the source never fire over `ℚ`
(there are no non-finite rationals), so they are dropped; every other branch,
loop, and arithmetic step is translated as written in the source.
-/

namespace LoanCalc

/-- Validation tolerance in won, `CONFIG.toleranceWon` in the source. -/
def toleranceWon : ℚ := 10

/-- One repayment-schedule record, the object pushed onto `schedule` by the
generators.  `isGracePeriod` and `note` are absent (`undefined`, falsy/empty)
on records that do not set them, which the embedding renders with the defaults
`false` and `""`. -/
structure Row where
  month : ℕ
  payment : ℚ
  principal : ℚ
  interest : ℚ
  balance : ℚ
  isGracePeriod : Bool := false
  note : String := ""
deriving DecidableEq

/-- `roundWon` of the source: `Math.round` to the nearest won
(`CONFIG.roundToWon` is `true`).  The `isFinite`/`NaN` guard of the source is
vacuous over `ℚ`. -/
def roundWon (value : ℚ) : ℚ := ((round value : ℤ) : ℚ)

/-- `getMonthlyRate`: annual percentage rate to monthly decimal rate. -/
def getMonthlyRate (annualRatePercent : ℚ) : ℚ := annualRatePercent / 100 / 12

/-- Result of `validateInputs`. -/
structure InputCheck where
  valid : Bool
  errors : List String
deriving DecidableEq

/-- `validateInputs` of the source.  The Korean error-message texts are
abbreviated to field-scoped English tags; the branch structure, bounds and the
order of the pushed messages are exactly those of the source
(`CONFIG.validation`). -/
def validateInputs (principal annualRate months graceMonths : ℚ) : InputCheck :=
  let errors : List String :=
    (if principal < 100000 ∨ principal > 10000000000 then
      ["principal out of range"] else []) ++
    (if months < 1 ∨ months > 600 then ["months out of range"] else []) ++
    (if annualRate < 0 ∨ annualRate > 30 then ["rate out of range"] else []) ++
    (if graceMonths < 0 ∨ graceMonths > 120 then ["grace out of range"] else []) ++
    (if graceMonths ≥ months then ["grace not shorter than term"] else [])
  ⟨errors.isEmpty, errors⟩

/-- Result record of `summarizeSchedule`.  The empty-schedule branch of the
source returns an object without a `rawInterestSum` key (`undefined`); the
embedding uses `0` there. -/
structure Summary where
  firstPayment : ℚ
  lastPayment : ℚ
  maxPayment : ℚ
  avgPayment : ℚ
  totalInterest : ℚ
  totalPayment : ℚ
  totalPrincipalPaid : ℚ
  rawInterestSum : ℚ
  finalBalance : ℚ
deriving DecidableEq

/-- `summarizeSchedule` of the source: reduces a schedule to its summary.
`totalInterest` is derived as `roundWon(Σ payment) - originalPrincipal`; the
directly summed interest is kept only in `rawInterestSum`. -/
def summarizeSchedule (schedule : List Row) (originalPrincipal : ℚ) : Summary :=
  match schedule with
  | [] => ⟨0, 0, 0, 0, 0, 0, 0, 0, 0⟩
  | first :: rest =>
    let all := first :: rest
    let totalInterest := (all.map Row.interest).sum
    let totalPrincipal := (all.map Row.principal).sum
    let totalPayment := (all.map Row.payment).sum
    let maxPayment := all.foldl (fun acc row =>
      if row.payment > acc then row.payment else acc) 0
    let roundedTotalPayment := roundWon totalPayment
    let derivedTotalInterest := roundedTotalPayment - originalPrincipal
    let last := rest.getLastD first
    { firstPayment := roundWon first.payment
      lastPayment := roundWon last.payment
      maxPayment := roundWon maxPayment
      avgPayment := roundWon (totalPayment / (all.length : ℚ))
      totalInterest := derivedTotalInterest
      totalPayment := roundedTotalPayment
      totalPrincipalPaid := roundWon totalPrincipal
      rawInterestSum := roundWon totalInterest
      finalBalance := roundWon last.balance }

/-- Result record of `validateSchedule` with its `details` object flattened.
For the empty-schedule branch the source's `details` is `{}`; zeros here. -/
structure ValidationResult where
  isValid : Bool
  errors : List String
  principalSum : ℚ
  interestSum : ℚ
  paymentSum : ℚ
  finalBalance : ℚ
  originalPrincipal : ℚ
deriving DecidableEq

/-- `validateSchedule` of the source: the four invariant checks, in order,
with the per-row check reporting at most the first three offenders plus an
overflow message.  Message texts are abbreviated to English tags. -/
def validateSchedule (schedule : List Row) (originalPrincipal : ℚ) :
    ValidationResult :=
  match schedule with
  | [] => ⟨false, ["empty schedule"], 0, 0, 0, 0, 0⟩
  | first :: rest =>
    let all := first :: rest
    let summary := summarizeSchedule all originalPrincipal
    let e1 : List String :=
      if |summary.totalPrincipalPaid - originalPrincipal| > toleranceWon then
        ["principal sum mismatch"] else []
    let e2 : List String :=
      if summary.finalBalance ≠ 0 then ["final balance nonzero"] else []
    let badRows := all.filter (fun row =>
      |row.payment - (row.principal + row.interest)| > toleranceWon)
    let e3 : List String :=
      (badRows.take 3).map (fun _ => "row payment mismatch") ++
        (if badRows.length > 3 then ["more row mismatches"] else [])
    let expectedTotal := originalPrincipal + summary.totalInterest
    let e4 : List String :=
      if |summary.totalPayment - expectedTotal| >
          toleranceWon * (all.length : ℚ) then
        ["total payment mismatch"] else []
    let errors := e1 ++ e2 ++ e3 ++ e4
    { isValid := errors.isEmpty
      errors := errors
      principalSum := summary.totalPrincipalPaid
      interestSum := summary.totalInterest
      paymentSum := summary.totalPayment
      finalBalance := summary.finalBalance
      originalPrincipal := originalPrincipal }

/-- `calcEqualPrincipalInterestPayment`: the raw (unrounded) annuity payment
`M = P·r(1+r)^n / ((1+r)^n - 1)`, `P/n` when `r = 0`, `0` when `n ≤ 0`.
The source's `isFinite` overflow guard on `(1+r)^n` is vacuous over `ℚ`. -/
def calcEqualPrincipalInterestPayment (principal monthlyRate : ℚ) (months : ℕ) :
    ℚ :=
  if months = 0 then 0
  else if monthlyRate = 0 then principal / (months : ℚ)
  else
    let compoundFactor := (1 + monthlyRate) ^ months
    principal * monthlyRate * compoundFactor / (compoundFactor - 1)

/-- The equal-payment (annuity) loop body shared by `generateEPISchedule` and
the repayment phase of `generateGraceSchedule` (the source duplicates this
loop verbatim in both places, with the month index offset in the grace case).
`k + 1` is the number of periods still to emit (so `k = 0` marks the final
period, `i === months` in the source), `m` is the month index of the next
record, and `balance` is the running unrounded balance. -/
def epiAux (monthlyRate rawPayment : ℚ) : ℕ → ℕ → ℚ → List Row
  | 0, _, _ => []
  | k + 1, m, balance =>
    let interest := balance * monthlyRate
    let principalPaid := if k = 0 then balance else rawPayment - interest
    let payment := principalPaid + interest
    let nextBalance := max 0 (balance - principalPaid)
    { month := m
      payment := roundWon payment
      principal := roundWon principalPaid
      interest := roundWon interest
      balance := roundWon nextBalance } ::
      epiAux monthlyRate rawPayment k (m + 1) nextBalance

/-- `generateEPISchedule` of the source. -/
def generateEPISchedule (principal monthlyRate : ℚ) (months : ℕ) : List Row :=
  epiAux monthlyRate
    (calcEqualPrincipalInterestPayment principal monthlyRate months)
    months 1 principal

/-- The equal-principal loop body shared by `generateEPSchedule` and the
repayment phase of `generateGraceSchedule` (again duplicated verbatim in the
source).  Arguments as in `epiAux`, with `monthlyPrincipal` the fixed
unrounded per-period principal. -/
def epAux (monthlyRate monthlyPrincipal : ℚ) : ℕ → ℕ → ℚ → List Row
  | 0, _, _ => []
  | k + 1, m, balance =>
    let interest := balance * monthlyRate
    let principalPaid := if k = 0 then balance else monthlyPrincipal
    let payment := principalPaid + interest
    let nextBalance := max 0 (balance - principalPaid)
    { month := m
      payment := roundWon payment
      principal := roundWon principalPaid
      interest := roundWon interest
      balance := roundWon nextBalance } ::
      epAux monthlyRate monthlyPrincipal k (m + 1) nextBalance

/-- `generateEPSchedule` of the source. -/
def generateEPSchedule (principal monthlyRate : ℚ) (months : ℕ) : List Row :=
  epAux monthlyRate (principal / (months : ℚ)) months 1 principal

/-- `generateBulletSchedule` of the source: interest-only periods followed by
a final balloon period.  Note that the source passes `principal` through to
the `payment`, `principal` and `balance` fields unrounded. -/
def generateBulletSchedule (principal monthlyRate : ℚ) (months : ℕ) :
    List Row :=
  let monthlyInterest := roundWon (principal * monthlyRate)
  (List.range months).map fun j =>
    let isLast : Bool := j + 1 = months
    { month := j + 1
      payment := if isLast then principal + monthlyInterest else monthlyInterest
      principal := if isLast then principal else 0
      interest := monthlyInterest
      balance := if isLast then 0 else principal
      note := if isLast then "만기일시상환" else "이자만납부" }

/-- `generateGraceSchedule` of the source: `graceMonths` interest-only records
(balance emitted unrounded as `principal`), then the equal-payment or
equal-principal loop over `months - graceMonths` periods re-seeded with the
full principal, month indices offset by `graceMonths`.  The repayment loops
are the source's verbatim duplicates of the `generateEPISchedule` /
`generateEPSchedule` bodies, rendered by `epiAux` / `epAux`. -/
def generateGraceSchedule (principal monthlyRate : ℚ)
    (months graceMonths : ℕ) (repaymentType : String) : List Row :=
  let repaymentMonths := months - graceMonths
  let graceInterest := roundWon (principal * monthlyRate)
  let graceRows := (List.range graceMonths).map fun j =>
    { month := j + 1
      payment := graceInterest
      principal := 0
      interest := graceInterest
      balance := principal
      isGracePeriod := true : Row }
  let repayRows :=
    if repaymentType = "EPI" then
      epiAux monthlyRate
        (calcEqualPrincipalInterestPayment principal monthlyRate
          repaymentMonths)
        repaymentMonths (graceMonths + 1) principal
    else
      epAux monthlyRate (principal / (repaymentMonths : ℚ))
        repaymentMonths (graceMonths + 1) principal
  graceRows ++ repayRows

/-- `generateSchedule` of the source: dispatch on the repayment-policy tag,
defaulting to the equal-payment generator for unrecognized tags. -/
def generateSchedule (type : String) (principal annualRate : ℚ)
    (months graceMonths : ℕ) : List Row :=
  let monthlyRate := getMonthlyRate annualRate
  if type = "equalPrincipalInterest" then
    generateEPISchedule principal monthlyRate months
  else if type = "equalPrincipal" then
    generateEPSchedule principal monthlyRate months
  else if type = "bullet" then
    generateBulletSchedule principal monthlyRate months
  else if type = "graceEqualPrincipalInterest" then
    generateGraceSchedule principal monthlyRate months graceMonths "EPI"
  else if type = "graceEqualPrincipal" then
    generateGraceSchedule principal monthlyRate months graceMonths "EP"
  else generateEPISchedule principal monthlyRate months

/-- The `LoanResult` record assembled by the `calculate*` functions.  Fields
that only some policies set (`repaymentMonths`, `gracePayment`,
`bulletWarning`) are `Option`s, `none` rendering the absent (`undefined`)
key. -/
structure LoanResult where
  type : String
  typeName : String
  principal : ℚ
  annualRate : ℚ
  months : ℕ
  graceMonths : ℕ
  repaymentMonths : Option ℕ := none
  gracePayment : Option ℚ := none
  monthlyPayment : ℚ
  firstPayment : ℚ
  lastPayment : ℚ
  avgPayment : ℚ
  maxPayment : ℚ
  totalInterest : ℚ
  totalPayment : ℚ
  validation : ValidationResult
  bulletWarning : Option String := none
deriving DecidableEq

/-- `calculateEqualPrincipalInterest` of the source (SSOT pattern: every
figure is extracted from the generated schedule). -/
def calculateEqualPrincipalInterest (principal annualRate : ℚ) (months : ℕ) :
    LoanResult :=
  let monthlyRate := getMonthlyRate annualRate
  let schedule := generateEPISchedule principal monthlyRate months
  let summary := summarizeSchedule schedule principal
  let validation := validateSchedule schedule principal
  { type := "equalPrincipalInterest"
    typeName := "원리금균등상환"
    principal := roundWon principal
    annualRate := annualRate
    months := months
    graceMonths := 0
    monthlyPayment := summary.firstPayment
    firstPayment := summary.firstPayment
    lastPayment := summary.lastPayment
    avgPayment := summary.avgPayment
    maxPayment := summary.maxPayment
    totalInterest := summary.totalInterest
    totalPayment := summary.totalPayment
    validation := validation }

/-- `calculateEqualPrincipal` of the source. -/
def calculateEqualPrincipal (principal annualRate : ℚ) (months : ℕ) :
    LoanResult :=
  let monthlyRate := getMonthlyRate annualRate
  let schedule := generateEPSchedule principal monthlyRate months
  let summary := summarizeSchedule schedule principal
  let validation := validateSchedule schedule principal
  { type := "equalPrincipal"
    typeName := "원금균등상환"
    principal := roundWon principal
    annualRate := annualRate
    months := months
    graceMonths := 0
    monthlyPayment := summary.firstPayment
    firstPayment := summary.firstPayment
    lastPayment := summary.lastPayment
    avgPayment := summary.avgPayment
    maxPayment := summary.maxPayment
    totalInterest := summary.totalInterest
    totalPayment := summary.totalPayment
    validation := validation }

/-- `calculateBullet` of the source.  The formatted amount inside the warning
string is abbreviated. -/
def calculateBullet (principal annualRate : ℚ) (months : ℕ) : LoanResult :=
  let monthlyRate := getMonthlyRate annualRate
  let schedule := generateBulletSchedule principal monthlyRate months
  let summary := summarizeSchedule schedule principal
  let validation := validateSchedule schedule principal
  { type := "bullet"
    typeName := "만기일시상환"
    principal := roundWon principal
    annualRate := annualRate
    months := months
    graceMonths := 0
    monthlyPayment := summary.firstPayment
    firstPayment := summary.firstPayment
    lastPayment := summary.lastPayment
    avgPayment := summary.avgPayment
    maxPayment := summary.maxPayment
    totalInterest := summary.totalInterest
    totalPayment := summary.totalPayment
    validation := validation
    bulletWarning := some "balloon repayment at maturity" }

/-- `calculateGraceEqualPrincipalInterest` of the source. -/
def calculateGraceEqualPrincipalInterest (principal annualRate : ℚ)
    (months graceMonths : ℕ) : LoanResult :=
  let monthlyRate := getMonthlyRate annualRate
  let schedule :=
    generateGraceSchedule principal monthlyRate months graceMonths "EPI"
  let summary := summarizeSchedule schedule principal
  let validation := validateSchedule schedule principal
  let gracePayment := roundWon (principal * monthlyRate)
  let repaymentFirstPayment :=
    match schedule.get? graceMonths with
    | some row => row.payment
    | none => 0
  { type := "graceEqualPrincipalInterest"
    typeName := "거치식(원리금균등)"
    principal := roundWon principal
    annualRate := annualRate
    months := months
    graceMonths := graceMonths
    repaymentMonths := some (months - graceMonths)
    gracePayment := some gracePayment
    monthlyPayment := repaymentFirstPayment
    firstPayment := summary.firstPayment
    lastPayment := summary.lastPayment
    avgPayment := summary.avgPayment
    maxPayment := summary.maxPayment
    totalInterest := summary.totalInterest
    totalPayment := summary.totalPayment
    validation := validation }

/-- `calculateGraceEqualPrincipal` of the source. -/
def calculateGraceEqualPrincipal (principal annualRate : ℚ)
    (months graceMonths : ℕ) : LoanResult :=
  let monthlyRate := getMonthlyRate annualRate
  let schedule :=
    generateGraceSchedule principal monthlyRate months graceMonths "EP"
  let summary := summarizeSchedule schedule principal
  let validation := validateSchedule schedule principal
  let gracePayment := roundWon (principal * monthlyRate)
  let repaymentFirstPayment :=
    match schedule.get? graceMonths with
    | some row => row.payment
    | none => 0
  { type := "graceEqualPrincipal"
    typeName := "거치식(원금균등)"
    principal := roundWon principal
    annualRate := annualRate
    months := months
    graceMonths := graceMonths
    repaymentMonths := some (months - graceMonths)
    gracePayment := some gracePayment
    monthlyPayment := repaymentFirstPayment
    firstPayment := summary.firstPayment
    lastPayment := summary.lastPayment
    avgPayment := summary.avgPayment
    maxPayment := summary.maxPayment
    totalInterest := summary.totalInterest
    totalPayment := summary.totalPayment
    validation := validation }

/-- The public `calculate` entry point of the source: dispatch on the policy
tag, defaulting to `calculateEqualPrincipalInterest` for unrecognized tags. -/
def calculate (type : String) (principal annualRate : ℚ)
    (months graceMonths : ℕ) : LoanResult :=
  if type = "equalPrincipalInterest" then
    calculateEqualPrincipalInterest principal annualRate months
  else if type = "equalPrincipal" then
    calculateEqualPrincipal principal annualRate months
  else if type = "bullet" then
    calculateBullet principal annualRate months
  else if type = "graceEqualPrincipalInterest" then
    calculateGraceEqualPrincipalInterest principal annualRate months
      graceMonths
  else if type = "graceEqualPrincipal" then
    calculateGraceEqualPrincipal principal annualRate months graceMonths
  else calculateEqualPrincipalInterest principal annualRate months

/-- The five recognized repayment-policy tags (`REPAYMENT_TYPES`). -/
def repaymentTags : List String :=
  ["equalPrincipalInterest", "equalPrincipal", "bullet",
   "graceEqualPrincipalInterest", "graceEqualPrincipal"]

/-- Month-index offset applied to a record, used to compare a grace-policy
repayment phase with the corresponding stand-alone schedule. -/
def shiftMonth (d : ℕ) (row : Row) : Row := { row with month := d + row.month }

/-- Proof device (not part of the source): the outstanding balance of an
annuity with per-period payment `rawPayment` and rate `monthlyRate` when `k`
payments remain, defined by discounting.  The running unrounded balance of the
source's equal-payment loop follows this sequence downwards. -/
def annuityBalance (monthlyRate rawPayment : ℚ) : ℕ → ℚ
  | 0 => 0
  | k + 1 =>
    (annuityBalance monthlyRate rawPayment k + rawPayment) / (1 + monthlyRate)

/-- The grace-period rows of `generateGraceSchedule`. -/
def graceRowsOf (P r : ℚ) (g : ℕ) : List Row :=
  (List.range g).map fun j =>
    { month := j + 1
      payment := roundWon (P * r)
      principal := 0
      interest := roundWon (P * r)
      balance := P
      isGracePeriod := true }

end LoanCalc

namespace LoanCalc

/-! ### Rounding lemmas -/

theorem roundWon_intCast (z : ℤ) : roundWon ((z : ℚ)) = z := by
  simp [roundWon]

theorem roundWon_zero : roundWon 0 = 0 := by simp [roundWon]

theorem roundWon_roundWon (x : ℚ) : roundWon (roundWon x) = roundWon x := by
  simp [roundWon]

theorem abs_roundWon_sub (x : ℚ) : |roundWon x - x| ≤ 1 / 2 := by
  rw [roundWon, abs_sub_comm]
  exact abs_sub_round x

theorem roundWon_mono {x y : ℚ} (h : x ≤ y) : roundWon x ≤ roundWon y := by
  unfold roundWon
  have : round x ≤ round y := by
    rw [round_eq, round_eq]
    exact Int.floor_le_floor (by linarith)
  exact_mod_cast this

theorem roundWon_den (x : ℚ) : (roundWon x).den = 1 := by
  simp [roundWon, Rat.den_intCast]

/-- Evaluation form of `roundWon` (JS `Math.round` is floor of `x + 1/2`),
used to compute concrete schedules with `norm_num`. -/
theorem roundWon_eq (x : ℚ) : roundWon x = ((⌊x + 1 / 2⌋ : ℤ) : ℚ) := by
  rw [roundWon, round_eq]

theorem epiAux_nil (r M : ℚ) (m : ℕ) (b : ℚ) : epiAux r M 0 m b = [] := rfl

theorem epAux_nil (r mp : ℚ) (m : ℕ) (b : ℚ) : epAux r mp 0 m b = [] := rfl

/-! ### Annuity-balance algebra -/

theorem one_add_rate_pos {r : ℚ} (hr : 0 ≤ r) : (0 : ℚ) < 1 + r := by linarith

theorem annuityBalance_nonneg {r M : ℚ} (hr : 0 ≤ r) (hM : 0 ≤ M) (k : ℕ) :
    0 ≤ annuityBalance r M k := by
  induction k with
  | zero => simp [annuityBalance]
  | succ k ih =>
    rw [annuityBalance]
    positivity

theorem annuityBalance_succ_mul {r M : ℚ} (hr : 0 ≤ r) (k : ℕ) :
    annuityBalance r M (k + 1) * (1 + r) = annuityBalance r M k + M := by
  rw [annuityBalance, div_mul_cancel₀]
  exact (one_add_rate_pos hr).ne'

theorem rate_mul_annuityBalance_le {r M : ℚ} (hr : 0 ≤ r) (hM : 0 ≤ M)
    (k : ℕ) : r * annuityBalance r M k ≤ M := by
  induction k with
  | zero => simpa [annuityBalance] using hM
  | succ k ih =>
    have hq : (0 : ℚ) < 1 + r := one_add_rate_pos hr
    have h1 : r * (annuityBalance r M (k + 1) * (1 + r)) ≤ M * (1 + r) := by
      rw [annuityBalance_succ_mul hr]
      nlinarith
    have h2 : r * annuityBalance r M (k + 1) * (1 + r) ≤ M * (1 + r) := by
      linarith [h1]
    exact le_of_mul_le_mul_right (by linarith [h2]) hq

theorem annuityBalance_le_succ {r M : ℚ} (hr : 0 ≤ r) (hM : 0 ≤ M) (k : ℕ) :
    annuityBalance r M k ≤ annuityBalance r M (k + 1) := by
  have hq : (0 : ℚ) < 1 + r := one_add_rate_pos hr
  have h := rate_mul_annuityBalance_le hr hM k
  rw [annuityBalance, le_div_iff₀ hq]
  nlinarith

theorem annuityBalance_mono {r M : ℚ} (hr : 0 ≤ r) (hM : 0 ≤ M) {a b : ℕ}
    (h : a ≤ b) : annuityBalance r M a ≤ annuityBalance r M b := by
  induction b with
  | zero => simp_all
  | succ b ih =>
    rcases Nat.lt_or_ge a (b + 1) with hab | hab
    · exact le_trans (ih (Nat.lt_succ_iff.mp hab))
        (annuityBalance_le_succ hr hM b)
    · have : a = b + 1 := le_antisymm h hab
      simp [this]

theorem annuityBalance_zero_rate (M : ℚ) (k : ℕ) :
    annuityBalance 0 M k = (k : ℚ) * M := by
  induction k with
  | zero => simp [annuityBalance]
  | succ k ih =>
    rw [annuityBalance, ih]
    push_cast
    ring

theorem annuityBalance_closed {r : ℚ} (hr : 0 < r) (M : ℚ) (k : ℕ) :
    annuityBalance r M k = M * ((1 + r) ^ k - 1) / (r * (1 + r) ^ k) := by
  induction k with
  | zero => simp [annuityBalance]
  | succ k ih =>
    have hq : (0 : ℚ) < 1 + r := by linarith
    have hqk : (0 : ℚ) < (1 + r) ^ k := pow_pos hq k
    rw [annuityBalance, ih, pow_succ]
    field_simp
    ring

/-- Seeding: the schedule's initial balance `P` is exactly the annuity balance
of `n` payments of `calcEqualPrincipalInterestPayment P r n`. -/
theorem annuityBalance_total (P : ℚ) {r : ℚ} (hr : 0 ≤ r) {n : ℕ}
    (hn : 1 ≤ n) :
    annuityBalance r (calcEqualPrincipalInterestPayment P r n) n = P := by
  rcases eq_or_lt_of_le hr with hr0 | hrpos
  · rw [calcEqualPrincipalInterestPayment, if_neg (by omega), ← hr0,
      if_pos rfl, annuityBalance_zero_rate,
      mul_div_cancel₀]
    have : (0 : ℚ) < (n : ℚ) := by exact_mod_cast (by omega : 0 < n)
    exact this.ne'
  · have hq : (1 : ℚ) < 1 + r := by linarith
    have hqn : (1 : ℚ) < (1 + r) ^ n := one_lt_pow₀ hq (by omega)
    have hqn0 : ((1 + r) ^ n : ℚ) ≠ 0 := by positivity
    have hd : ((1 + r) ^ n - 1 : ℚ) ≠ 0 := by linarith
    rw [annuityBalance_closed hrpos, calcEqualPrincipalInterestPayment,
      if_neg (by omega), if_neg hrpos.ne']
    field_simp
    ring

theorem calcPayment_nonneg {P r : ℚ} (hP : 0 ≤ P) (hr : 0 ≤ r) (n : ℕ) :
    0 ≤ calcEqualPrincipalInterestPayment P r n := by
  rw [calcEqualPrincipalInterestPayment]
  split_ifs with h0 hr0
  · exact le_refl 0
  · positivity
  · have hrpos : 0 < r := lt_of_le_of_ne hr (Ne.symm hr0)
    have hq : (1 : ℚ) < 1 + r := by linarith
    have hqn : (1 : ℚ) < (1 + r) ^ n := one_lt_pow₀ hq h0
    have : (0 : ℚ) < (1 + r) ^ n - 1 := by linarith
    positivity

end LoanCalc

namespace LoanCalc

/-! ### Structure of the equal-payment loop -/

theorem epiAux_length (r M : ℚ) :
    ∀ (k m : ℕ) (b : ℚ), (epiAux r M k m b).length = k
  | 0, _, _ => rfl
  | k + 1, m, b => by
    rw [epiAux]
    simpa using epiAux_length r M k (m + 1) _

theorem epiAux_ne_nil (r M : ℚ) {k : ℕ} (hk : 1 ≤ k) (m : ℕ) (b : ℚ) :
    epiAux r M k m b ≠ [] := by
  intro h
  have := epiAux_length r M k m b
  rw [h] at this
  simp at this
  omega

theorem epiAux_month_shift (r M : ℚ) :
    ∀ (k d m : ℕ) (b : ℚ),
      epiAux r M k (d + m) b = (epiAux r M k m b).map (shiftMonth d)
  | 0, _, _, _ => rfl
  | k + 1, d, m, b => by
    rw [epiAux, epiAux, List.map_cons]
    have harg : d + m + 1 = d + (m + 1) := by omega
    rw [harg, epiAux_month_shift r M k d (m + 1) _]
    rfl

theorem getLast?_cons_ne_nil {α : Type} (a : α) {l : List α} (hl : l ≠ []) :
    (a :: l).getLast? = l.getLast? := by
  cases l with
  | nil => exact absurd rfl hl
  | cons b t => exact List.getLast?_cons_cons

theorem epiAux_getLast_balance (r M : ℚ) :
    ∀ (k : ℕ), 1 ≤ k → ∀ (m : ℕ) (b : ℚ),
      ((epiAux r M k m b).map Row.balance).getLast? = some 0
  | 1, _, m, b => by
    simp [epiAux, roundWon_zero]
  | k + 2, _, m, b => by
    rw [epiAux, List.map_cons, getLast?_cons_ne_nil]
    · exact epiAux_getLast_balance r M (k + 1) (by omega) (m + 1) _
    · simp only [ne_eq, List.map_eq_nil_iff]
      exact epiAux_ne_nil r M (by omega) _ _

end LoanCalc

namespace LoanCalc

/-- One loop step of the equal-payment body maps the annuity balance with
`k + 2` payments left to the one with `k + 1` left (the `Math.max(0, ...)`
clamp never fires on this track). -/
theorem epiAux_next_balance {r M : ℚ} (hr : 0 ≤ r) (hM : 0 ≤ M) (k : ℕ) :
    max 0 (annuityBalance r M (k + 2) - (M - annuityBalance r M (k + 2) * r)) =
      annuityBalance r M (k + 1) := by
  have h1 := annuityBalance_succ_mul (M := M) hr (k + 1)
  have h2 : annuityBalance r M (k + 2) * (1 + r) =
      annuityBalance r M (k + 2) + annuityBalance r M (k + 2) * r := by ring
  have h : annuityBalance r M (k + 2) - (M - annuityBalance r M (k + 2) * r) =
      annuityBalance r M (k + 1) := by linarith
  rw [h, max_eq_right (annuityBalance_nonneg hr hM (k + 1))]

/-- Explicit one-step unfolding of the equal-payment loop. -/
theorem epiAux_cons (r M : ℚ) (k m : ℕ) (b : ℚ) :
    epiAux r M (k + 1) m b =
      { month := m
        payment := roundWon ((if k = 0 then b else M - b * r) + b * r)
        principal := roundWon (if k = 0 then b else M - b * r)
        interest := roundWon (b * r)
        balance :=
          roundWon (max 0 (b - (if k = 0 then b else M - b * r))) } ::
        epiAux r M k (m + 1)
          (max 0 (b - (if k = 0 then b else M - b * r))) := rfl

/-- Emitted balances of the equal-payment loop seeded on the annuity track:
the rounded annuity balances, counting down to zero. -/
theorem epiAux_balance_map {r M : ℚ} (hr : 0 ≤ r) (hM : 0 ≤ M) :
    ∀ (k m : ℕ),
      (epiAux r M k m (annuityBalance r M k)).map Row.balance =
        (List.range k).map (fun j => roundWon (annuityBalance r M (k - 1 - j)))
  | 0, _ => by simp [epiAux]
  | 1, m => by
    rw [epiAux_cons]
    simp [annuityBalance, epiAux]
  | k' + 2, m => by
    have hnext := epiAux_next_balance hr hM k'
    rw [epiAux_cons, if_neg (Nat.succ_ne_zero k'), hnext, List.map_cons,
      epiAux_balance_map hr hM (k' + 1) (m + 1)]
    rw [show k' + 2 = k' + 1 + 1 by omega]
    conv_rhs => rw [List.range_succ_eq_map, List.map_cons, List.map_map]
    congr 1
    apply List.map_congr_left
    intro x _
    simp only [Function.comp_apply]
    congr 2
    omega

end LoanCalc

namespace LoanCalc

/-- The emitted (rounded) principal components of the equal-payment loop sum
to the seed balance up to half a won of rounding per period. -/
theorem epiAux_sum_principal {r M : ℚ} (hr : 0 ≤ r) (hM : 0 ≤ M) :
    ∀ (k m : ℕ),
      |((epiAux r M k m (annuityBalance r M k)).map Row.principal).sum -
        annuityBalance r M k| ≤ (k : ℚ) / 2
  | 0, _ => by simp [epiAux, annuityBalance]
  | 1, m => by
    rw [epiAux_cons]
    simpa [epiAux] using abs_roundWon_sub (annuityBalance r M 1)
  | k' + 2, m => by
    have hnext := epiAux_next_balance hr hM k'
    rw [epiAux_cons, if_neg (Nat.succ_ne_zero k'), hnext, List.map_cons,
      List.sum_cons]
    have h1 := abs_roundWon_sub (M - annuityBalance r M (k' + 2) * r)
    have h2 := epiAux_sum_principal hr hM (k' + 1) (m + 1)
    have hsucc : annuityBalance r M (k' + 2) * (1 + r) =
        annuityBalance r M (k' + 1) + M :=
      annuityBalance_succ_mul (M := M) hr (k' + 1)
    have hexpand : annuityBalance r M (k' + 2) * (1 + r) =
        annuityBalance r M (k' + 2) + annuityBalance r M (k' + 2) * r := by
      ring
    have key : annuityBalance r M (k' + 2) =
        (M - annuityBalance r M (k' + 2) * r) + annuityBalance r M (k' + 1) := by
      linarith
    show |roundWon (M - annuityBalance r M (k' + 2) * r) +
        ((epiAux r M (k' + 1) (m + 1)
          (annuityBalance r M (k' + 1))).map Row.principal).sum -
        annuityBalance r M (k' + 2)| ≤ ((k' + 2 : ℕ) : ℚ) / 2
    set S := ((epiAux r M (k' + 1) (m + 1)
      (annuityBalance r M (k' + 1))).map Row.principal).sum with hS
    have hsplit : roundWon (M - annuityBalance r M (k' + 2) * r) + S -
        annuityBalance r M (k' + 2) =
        (roundWon (M - annuityBalance r M (k' + 2) * r) -
          (M - annuityBalance r M (k' + 2) * r)) +
          (S - annuityBalance r M (k' + 1)) := by
      linarith [key]
    rw [hsplit]
    refine le_trans (abs_add _ _) ?_
    have h2' : |S - annuityBalance r M (k' + 1)| ≤ ((k' + 1 : ℕ) : ℚ) / 2 := h2
    push_cast at h2' ⊢
    linarith

/-- First emitted balance of the equal-payment loop on the annuity track. -/
theorem epiAux_head_balance {r M : ℚ} (hr : 0 ≤ r) (hM : 0 ≤ M) {k : ℕ}
    (hk : 1 ≤ k) (m : ℕ) :
    ((epiAux r M k m (annuityBalance r M k)).map Row.balance).head? =
      some (roundWon (annuityBalance r M (k - 1))) := by
  rw [epiAux_balance_map hr hM]
  cases k with
  | zero => omega
  | succ k' => rw [List.range_succ_eq_map]; rfl

/-- Generic helper: mapping an antitone function over `range k` yields a
non-increasing list. -/
theorem chain'_ge_range_map (g : ℕ → ℚ) (hg : ∀ j, g (j + 1) ≤ g j) (k : ℕ) :
    List.Chain' (fun a b : ℚ => b ≤ a) ((List.range k).map g) := by
  rw [List.chain'_map]
  cases k with
  | zero => simp
  | succ k' =>
    rw [List.chain'_range_succ]
    intro m _
    exact hg m

/-- The emitted balances of the equal-payment loop on the annuity track are
non-increasing. -/
theorem epiAux_chain {r M : ℚ} (hr : 0 ≤ r) (hM : 0 ≤ M) (k m : ℕ) :
    List.Chain' (fun a b : ℚ => b ≤ a)
      ((epiAux r M k m (annuityBalance r M k)).map Row.balance) := by
  rw [epiAux_balance_map hr hM]
  apply chain'_ge_range_map
  intro j
  exact roundWon_mono (annuityBalance_mono hr hM (by omega))

/-- Every record emitted by the equal-payment loop has integer fields. -/
theorem epiAux_mem_den (r M : ℚ) :
    ∀ (k m : ℕ) (b : ℚ), ∀ row ∈ epiAux r M k m b,
      row.payment.den = 1 ∧ row.principal.den = 1 ∧ row.interest.den = 1 ∧
        row.balance.den = 1
  | 0, _, _ => by simp [epiAux]
  | k + 1, m, b => by
    intro row hmem
    rw [epiAux_cons] at hmem
    rcases List.mem_cons.mp hmem with heq | htail
    · subst heq
      exact ⟨roundWon_den _, roundWon_den _, roundWon_den _, roundWon_den _⟩
    · exact epiAux_mem_den r M k (m + 1) _ row htail

end LoanCalc

namespace LoanCalc

/-! ### Structure of the equal-principal loop -/

theorem epAux_length (r mp : ℚ) :
    ∀ (k m : ℕ) (b : ℚ), (epAux r mp k m b).length = k
  | 0, _, _ => rfl
  | k + 1, m, b => by
    rw [epAux]
    simpa using epAux_length r mp k (m + 1) _

theorem epAux_ne_nil (r mp : ℚ) {k : ℕ} (hk : 1 ≤ k) (m : ℕ) (b : ℚ) :
    epAux r mp k m b ≠ [] := by
  intro h
  have := epAux_length r mp k m b
  rw [h] at this
  simp at this
  omega

/-- Explicit one-step unfolding of the equal-principal loop. -/
theorem epAux_cons (r mp : ℚ) (k m : ℕ) (b : ℚ) :
    epAux r mp (k + 1) m b =
      { month := m
        payment := roundWon ((if k = 0 then b else mp) + b * r)
        principal := roundWon (if k = 0 then b else mp)
        interest := roundWon (b * r)
        balance := roundWon (max 0 (b - (if k = 0 then b else mp))) } ::
        epAux r mp k (m + 1) (max 0 (b - (if k = 0 then b else mp))) := rfl

theorem epAux_month_shift (r mp : ℚ) :
    ∀ (k d m : ℕ) (b : ℚ),
      epAux r mp k (d + m) b = (epAux r mp k m b).map (shiftMonth d)
  | 0, _, _, _ => rfl
  | k + 1, d, m, b => by
    rw [epAux_cons, epAux_cons, List.map_cons]
    have harg : d + m + 1 = d + (m + 1) := by omega
    rw [harg, epAux_month_shift r mp k d (m + 1) _]
    rfl

theorem epAux_getLast_balance (r mp : ℚ) :
    ∀ (k : ℕ), 1 ≤ k → ∀ (m : ℕ) (b : ℚ),
      ((epAux r mp k m b).map Row.balance).getLast? = some 0
  | 1, _, m, b => by
    simp [epAux, roundWon_zero]
  | k + 2, _, m, b => by
    rw [epAux_cons, List.map_cons, getLast?_cons_ne_nil]
    · exact epAux_getLast_balance r mp (k + 1) (by omega) (m + 1) _
    · simp only [ne_eq, List.map_eq_nil_iff]
      exact epAux_ne_nil r mp (by omega) _ _

theorem epAux_next_balance {mp : ℚ} (hmp : 0 ≤ mp) (k : ℕ) :
    max 0 (((k + 2 : ℕ) : ℚ) * mp - mp) = ((k + 1 : ℕ) : ℚ) * mp := by
  have h : ((k + 2 : ℕ) : ℚ) * mp - mp = ((k + 1 : ℕ) : ℚ) * mp := by
    push_cast
    ring
  rw [h, max_eq_right (by positivity)]

/-- Emitted balances of the equal-principal loop on the linear track. -/
theorem epAux_balance_map (r : ℚ) {mp : ℚ} (hmp : 0 ≤ mp) :
    ∀ (k m : ℕ),
      (epAux r mp k m (((k : ℕ) : ℚ) * mp)).map Row.balance =
        (List.range k).map (fun j => roundWon (((k - 1 - j : ℕ) : ℚ) * mp))
  | 0, _ => by simp [epAux]
  | 1, m => by
    rw [epAux_cons]
    simp [epAux]
  | k' + 2, m => by
    have hnext := epAux_next_balance hmp k'
    rw [epAux_cons, if_neg (Nat.succ_ne_zero k'), hnext, List.map_cons,
      epAux_balance_map r hmp (k' + 1) (m + 1)]
    rw [show k' + 2 = k' + 1 + 1 by omega]
    conv_rhs => rw [List.range_succ_eq_map, List.map_cons, List.map_map]
    congr 1
    apply List.map_congr_left
    intro x _
    simp only [Function.comp_apply]
    congr 3
    omega

/-- The emitted principal components of the equal-principal loop sum to the
seed balance up to half a won of rounding per period. -/
theorem epAux_sum_principal (r : ℚ) {mp : ℚ} (hmp : 0 ≤ mp) :
    ∀ (k m : ℕ),
      |((epAux r mp k m (((k : ℕ) : ℚ) * mp)).map Row.principal).sum -
        ((k : ℕ) : ℚ) * mp| ≤ (k : ℚ) / 2
  | 0, _ => by simp [epAux]
  | 1, m => by
    rw [epAux_cons]
    simpa [epAux] using abs_roundWon_sub (((1 : ℕ) : ℚ) * mp)
  | k' + 2, m => by
    have hnext := epAux_next_balance hmp k'
    rw [epAux_cons, if_neg (Nat.succ_ne_zero k'), hnext, List.map_cons,
      List.sum_cons]
    have h1 := abs_roundWon_sub mp
    have h2 := epAux_sum_principal r hmp (k' + 1) (m + 1)
    show |roundWon mp +
        ((epAux r mp (k' + 1) (m + 1)
          (((k' + 1 : ℕ) : ℚ) * mp)).map Row.principal).sum -
        ((k' + 2 : ℕ) : ℚ) * mp| ≤ ((k' + 2 : ℕ) : ℚ) / 2
    set S := ((epAux r mp (k' + 1) (m + 1)
      (((k' + 1 : ℕ) : ℚ) * mp)).map Row.principal).sum with hS
    have hsplit : roundWon mp + S - ((k' + 2 : ℕ) : ℚ) * mp =
        (roundWon mp - mp) + (S - ((k' + 1 : ℕ) : ℚ) * mp) := by
      push_cast
      ring
    rw [hsplit]
    refine le_trans (abs_add _ _) ?_
    have h2' : |S - ((k' + 1 : ℕ) : ℚ) * mp| ≤ ((k' + 1 : ℕ) : ℚ) / 2 := h2
    push_cast at h2' ⊢
    linarith

/-- First emitted balance of the equal-principal loop on the linear track. -/
theorem epAux_head_balance (r : ℚ) {mp : ℚ} (hmp : 0 ≤ mp) {k : ℕ}
    (hk : 1 ≤ k) (m : ℕ) :
    ((epAux r mp k m (((k : ℕ) : ℚ) * mp)).map Row.balance).head? =
      some (roundWon (((k - 1 : ℕ) : ℚ) * mp)) := by
  rw [epAux_balance_map r hmp]
  cases k with
  | zero => omega
  | succ k' => rw [List.range_succ_eq_map]; rfl

/-- The emitted balances of the equal-principal loop are non-increasing. -/
theorem epAux_chain (r : ℚ) {mp : ℚ} (hmp : 0 ≤ mp) (k m : ℕ) :
    List.Chain' (fun a b : ℚ => b ≤ a)
      ((epAux r mp k m (((k : ℕ) : ℚ) * mp)).map Row.balance) := by
  rw [epAux_balance_map r hmp]
  apply chain'_ge_range_map
  intro j
  apply roundWon_mono
  have hle : ((k - 1 - (j + 1) : ℕ) : ℚ) ≤ ((k - 1 - j : ℕ) : ℚ) := by
    exact_mod_cast Nat.sub_le_sub_left (by omega) (k - 1)
  exact mul_le_mul_of_nonneg_right hle hmp

/-- Every record emitted by the equal-principal loop has integer fields. -/
theorem epAux_mem_den (r mp : ℚ) :
    ∀ (k m : ℕ) (b : ℚ), ∀ row ∈ epAux r mp k m b,
      row.payment.den = 1 ∧ row.principal.den = 1 ∧ row.interest.den = 1 ∧
        row.balance.den = 1
  | 0, _, _ => by simp [epAux]
  | k + 1, m, b => by
    intro row hmem
    rw [epAux_cons] at hmem
    rcases List.mem_cons.mp hmem with heq | htail
    · subst heq
      exact ⟨roundWon_den _, roundWon_den _, roundWon_den _, roundWon_den _⟩
    · exact epAux_mem_den r mp k (m + 1) _ row htail

end LoanCalc

namespace LoanCalc

/-! ### Structure of the bullet schedule -/

theorem bullet_principal_map (P r : ℚ) (n : ℕ) :
    (generateBulletSchedule P r n).map Row.principal =
      (List.range n).map (fun j => if j + 1 = n then P else 0) := by
  unfold generateBulletSchedule
  rw [List.map_map]
  apply List.map_congr_left
  intro j _
  by_cases h : j + 1 = n <;> simp [h]

theorem bullet_balance_map (P r : ℚ) (n : ℕ) :
    (generateBulletSchedule P r n).map Row.balance =
      (List.range n).map (fun j => if j + 1 = n then 0 else P) := by
  unfold generateBulletSchedule
  rw [List.map_map]
  apply List.map_congr_left
  intro j _
  by_cases h : j + 1 = n <;> simp [h]

theorem bullet_sum_principal (P r : ℚ) {n : ℕ} (hn : 1 ≤ n) :
    ((generateBulletSchedule P r n).map Row.principal).sum = P := by
  rw [bullet_principal_map]
  obtain ⟨k, rfl⟩ : ∃ k, n = k + 1 := ⟨n - 1, by omega⟩
  rw [List.range_succ, List.map_append, List.sum_append]
  have h0 : ((List.range k).map
      (fun j => if j + 1 = k + 1 then P else 0)).sum = 0 := by
    apply List.sum_eq_zero
    intro x hx
    rcases List.mem_map.mp hx with ⟨j, hj, rfl⟩
    have hne : j + 1 ≠ k + 1 := by
      have := List.mem_range.mp hj
      omega
    simp [hne]
  rw [h0]
  simp

/-- Restricted form of the antitone-range chain helper. -/
theorem chain'_ge_range_map_lt (g : ℕ → ℚ) (k : ℕ)
    (hg : ∀ j, j + 1 < k → g (j + 1) ≤ g j) :
    List.Chain' (fun a b : ℚ => b ≤ a) ((List.range k).map g) := by
  rw [List.chain'_map]
  cases k with
  | zero => simp
  | succ k' =>
    rw [List.chain'_range_succ]
    intro m hm
    exact hg m (by omega)

theorem bullet_chain (r : ℚ) {P : ℚ} (hP : 0 ≤ P) (n : ℕ) :
    List.Chain' (fun a b : ℚ => b ≤ a)
      ((generateBulletSchedule P r n).map Row.balance) := by
  rw [bullet_balance_map]
  apply chain'_ge_range_map_lt
  intro j hj
  have hne : j + 1 ≠ n := by omega
  by_cases h2 : j + 2 = n
  · simp [hne, h2, hP]
  · have : j + 1 + 1 ≠ n := by omega
    simp [hne, this]

theorem bullet_getLast_balance (P r : ℚ) {n : ℕ} (hn : 1 ≤ n) :
    ((generateBulletSchedule P r n).map Row.balance).getLast? = some 0 := by
  rw [bullet_balance_map]
  obtain ⟨k, rfl⟩ : ∃ k, n = k + 1 := ⟨n - 1, by omega⟩
  rw [List.range_succ, List.map_append,
    List.getLast?_append_of_ne_nil _ (by simp)]
  simp

theorem bullet_mem_den (r : ℚ) (P : ℤ) (n : ℕ) :
    ∀ row ∈ generateBulletSchedule (P : ℚ) r n,
      row.payment.den = 1 ∧ row.principal.den = 1 ∧ row.interest.den = 1 ∧
        row.balance.den = 1 := by
  intro row hmem
  unfold generateBulletSchedule at hmem
  rcases List.mem_map.mp hmem with ⟨j, _, rfl⟩
  have hPden : ((P : ℚ)).den = 1 := Rat.den_intCast P
  have hzero : ((0 : ℚ)).den = 1 := rfl
  have hsum : (((P : ℚ)) + roundWon ((P : ℚ) * r)).den = 1 := by
    rw [roundWon]
    have : ((P : ℚ)) + ((round ((P : ℚ) * r) : ℤ) : ℚ) =
        (((P + round ((P : ℚ) * r)) : ℤ) : ℚ) := by push_cast; ring
    rw [this]
    exact Rat.den_intCast _
  by_cases h : j + 1 = n
  · exact ⟨by simp [h, hsum], by simp [h, hPden], roundWon_den _,
      by simp [h, hzero]⟩
  · exact ⟨by simp [h, roundWon_den], by simp [h, hzero], roundWon_den _,
      by simp [h, hPden]⟩

end LoanCalc

namespace LoanCalc

/-! ### Dispatch and grace-schedule structure -/

theorem generateSchedule_epi (P rate : ℚ) (n g : ℕ) :
    generateSchedule "equalPrincipalInterest" P rate n g =
      generateEPISchedule P (getMonthlyRate rate) n := rfl

theorem generateSchedule_ep (P rate : ℚ) (n g : ℕ) :
    generateSchedule "equalPrincipal" P rate n g =
      generateEPSchedule P (getMonthlyRate rate) n := rfl

theorem generateSchedule_bullet (P rate : ℚ) (n g : ℕ) :
    generateSchedule "bullet" P rate n g =
      generateBulletSchedule P (getMonthlyRate rate) n := rfl

theorem generateSchedule_grace_epi (P rate : ℚ) (n g : ℕ) :
    generateSchedule "graceEqualPrincipalInterest" P rate n g =
      generateGraceSchedule P (getMonthlyRate rate) n g "EPI" := rfl

theorem generateSchedule_grace_ep (P rate : ℚ) (n g : ℕ) :
    generateSchedule "graceEqualPrincipal" P rate n g =
      generateGraceSchedule P (getMonthlyRate rate) n g "EP" := rfl

theorem generateGraceSchedule_epi_def (P r : ℚ) (n g : ℕ) :
    generateGraceSchedule P r n g "EPI" =
      graceRowsOf P r g ++
        epiAux r (calcEqualPrincipalInterestPayment P r (n - g)) (n - g)
          (g + 1) P := rfl

theorem generateGraceSchedule_ep_def (P r : ℚ) (n g : ℕ) :
    generateGraceSchedule P r n g "EP" =
      graceRowsOf P r g ++
        epAux r (P / ((n - g : ℕ) : ℚ)) (n - g) (g + 1) P := rfl

theorem graceRowsOf_length (P r : ℚ) (g : ℕ) : (graceRowsOf P r g).length = g := by
  simp [graceRowsOf]

theorem graceRowsOf_balance_map (P r : ℚ) (g : ℕ) :
    (graceRowsOf P r g).map Row.balance = (List.range g).map (fun _ => P) := by
  unfold graceRowsOf
  rw [List.map_map]
  apply List.map_congr_left
  intro j _
  rfl

theorem graceRowsOf_principal_map (P r : ℚ) (g : ℕ) :
    (graceRowsOf P r g).map Row.principal =
      (List.range g).map (fun _ => (0 : ℚ)) := by
  unfold graceRowsOf
  rw [List.map_map]
  apply List.map_congr_left
  intro j _
  rfl

theorem sum_range_map_const_zero (g : ℕ) :
    ((List.range g).map (fun _ => (0 : ℚ))).sum = 0 := by
  apply List.sum_eq_zero
  intro x hx
  rcases List.mem_map.mp hx with ⟨j, _, rfl⟩
  rfl

theorem getLast?_range_map_const (x : ℚ) {g : ℕ} (hg : 1 ≤ g) :
    ((List.range g).map (fun _ => x)).getLast? = some x := by
  obtain ⟨k, rfl⟩ : ∃ k, g = k + 1 := ⟨g - 1, by omega⟩
  rw [List.range_succ, List.map_append,
    List.getLast?_append_of_ne_nil _ (by simp)]
  rfl

theorem graceRowsOf_mem_den (r : ℚ) (P : ℤ) (g : ℕ) :
    ∀ row ∈ graceRowsOf (P : ℚ) r g,
      row.payment.den = 1 ∧ row.principal.den = 1 ∧ row.interest.den = 1 ∧
        row.balance.den = 1 := by
  intro row hmem
  rcases List.mem_map.mp hmem with ⟨j, _, rfl⟩
  exact ⟨roundWon_den _, rfl, roundWon_den _, Rat.den_intCast P⟩

end LoanCalc

namespace LoanCalc

/-! ### Aggregate facts per generator -/

theorem getMonthlyRate_nonneg {rate : ℚ} (h : 0 ≤ rate) :
    0 ≤ getMonthlyRate rate := by
  unfold getMonthlyRate
  positivity

theorem generateEPISchedule_sum {P r : ℚ} (hP : 0 ≤ P) (hr : 0 ≤ r) {n : ℕ}
    (hn : 1 ≤ n) :
    |((generateEPISchedule P r n).map Row.principal).sum - P| ≤ (n : ℚ) / 2 := by
  unfold generateEPISchedule
  set M := calcEqualPrincipalInterestPayment P r n with hMdef
  have hM : 0 ≤ M := by rw [hMdef]; exact calcPayment_nonneg hP hr n
  have hseed : annuityBalance r M n = P := by
    rw [hMdef]; exact annuityBalance_total P hr hn
  rw [← hseed]
  exact epiAux_sum_principal hr hM n 1

theorem generateEPISchedule_chain {P r : ℚ} (hP : 0 ≤ P) (hr : 0 ≤ r) {n : ℕ}
    (hn : 1 ≤ n) :
    List.Chain' (fun a b : ℚ => b ≤ a)
      ((generateEPISchedule P r n).map Row.balance) := by
  unfold generateEPISchedule
  set M := calcEqualPrincipalInterestPayment P r n with hMdef
  have hM : 0 ≤ M := by rw [hMdef]; exact calcPayment_nonneg hP hr n
  have hseed : annuityBalance r M n = P := by
    rw [hMdef]; exact annuityBalance_total P hr hn
  rw [← hseed]
  exact epiAux_chain hr hM n 1

theorem generateEPISchedule_last (P r : ℚ) {n : ℕ} (hn : 1 ≤ n) :
    ((generateEPISchedule P r n).map Row.balance).getLast? = some 0 :=
  epiAux_getLast_balance _ _ n hn 1 P

theorem generateEPSchedule_sum {P r : ℚ} (hP : 0 ≤ P) {n : ℕ} (hn : 1 ≤ n) :
    |((generateEPSchedule P r n).map Row.principal).sum - P| ≤ (n : ℚ) / 2 := by
  unfold generateEPSchedule
  set mp := P / ((n : ℕ) : ℚ) with hmpdef
  have hmp : 0 ≤ mp := by
    rw [hmpdef]; exact div_nonneg hP (Nat.cast_nonneg n)
  have hseed : ((n : ℕ) : ℚ) * mp = P := by
    rw [hmpdef, mul_div_cancel₀]
    exact_mod_cast (by omega : n ≠ 0)
  rw [← hseed]
  exact epAux_sum_principal r hmp n 1

theorem generateEPSchedule_chain {P r : ℚ} (hP : 0 ≤ P) {n : ℕ} (hn : 1 ≤ n) :
    List.Chain' (fun a b : ℚ => b ≤ a)
      ((generateEPSchedule P r n).map Row.balance) := by
  unfold generateEPSchedule
  set mp := P / ((n : ℕ) : ℚ) with hmpdef
  have hmp : 0 ≤ mp := by
    rw [hmpdef]; exact div_nonneg hP (Nat.cast_nonneg n)
  have hseed : ((n : ℕ) : ℚ) * mp = P := by
    rw [hmpdef, mul_div_cancel₀]
    exact_mod_cast (by omega : n ≠ 0)
  rw [← hseed]
  exact epAux_chain r hmp n 1

theorem generateEPSchedule_last (P r : ℚ) {n : ℕ} (hn : 1 ≤ n) :
    ((generateEPSchedule P r n).map Row.balance).getLast? = some 0 :=
  epAux_getLast_balance _ _ n hn 1 P

theorem generateGraceSchedule_epi_sum {P r : ℚ} (hP : 0 ≤ P) (hr : 0 ≤ r)
    {n g : ℕ} (hg : g < n) :
    |((generateGraceSchedule P r n g "EPI").map Row.principal).sum - P| ≤
      (n : ℚ) / 2 := by
  rw [generateGraceSchedule_epi_def, List.map_append, List.sum_append,
    graceRowsOf_principal_map, sum_range_map_const_zero, zero_add]
  set M := calcEqualPrincipalInterestPayment P r (n - g) with hMdef
  have hM : 0 ≤ M := by rw [hMdef]; exact calcPayment_nonneg hP hr (n - g)
  have hseed : annuityBalance r M (n - g) = P := by
    rw [hMdef]; exact annuityBalance_total P hr (by omega)
  rw [← hseed]
  refine le_trans (epiAux_sum_principal hr hM (n - g) (g + 1)) ?_
  have : ((n - g : ℕ) : ℚ) ≤ (n : ℚ) := by
    exact_mod_cast Nat.sub_le n g
  linarith

theorem generateGraceSchedule_ep_sum {P r : ℚ} (hP : 0 ≤ P) {n g : ℕ}
    (hg : g < n) :
    |((generateGraceSchedule P r n g "EP").map Row.principal).sum - P| ≤
      (n : ℚ) / 2 := by
  rw [generateGraceSchedule_ep_def, List.map_append, List.sum_append,
    graceRowsOf_principal_map, sum_range_map_const_zero, zero_add]
  set mp := P / ((n - g : ℕ) : ℚ) with hmpdef
  have hmp : 0 ≤ mp := by
    rw [hmpdef]; exact div_nonneg hP (Nat.cast_nonneg _)
  have hseed : ((n - g : ℕ) : ℚ) * mp = P := by
    rw [hmpdef, mul_div_cancel₀]
    exact_mod_cast (by omega : n - g ≠ 0)
  rw [← hseed]
  refine le_trans (epAux_sum_principal r hmp (n - g) (g + 1)) ?_
  have : ((n - g : ℕ) : ℚ) ≤ (n : ℚ) := by
    exact_mod_cast Nat.sub_le n g
  linarith

theorem generateGraceSchedule_epi_last (P r : ℚ) {n g : ℕ} (hg : g < n) :
    ((generateGraceSchedule P r n g "EPI").map Row.balance).getLast? =
      some 0 := by
  rw [generateGraceSchedule_epi_def, List.map_append,
    List.getLast?_append_of_ne_nil _ ?_]
  · exact epiAux_getLast_balance _ _ (n - g) (by omega) _ _
  · simp only [ne_eq, List.map_eq_nil_iff]
    exact epiAux_ne_nil _ _ (by omega) _ _

theorem generateGraceSchedule_ep_last (P r : ℚ) {n g : ℕ} (hg : g < n) :
    ((generateGraceSchedule P r n g "EP").map Row.balance).getLast? =
      some 0 := by
  rw [generateGraceSchedule_ep_def, List.map_append,
    List.getLast?_append_of_ne_nil _ ?_]
  · exact epAux_getLast_balance _ _ (n - g) (by omega) _ _
  · simp only [ne_eq, List.map_eq_nil_iff]
    exact epAux_ne_nil _ _ (by omega) _ _

end LoanCalc

namespace LoanCalc

theorem generateGraceSchedule_epi_chain (P : ℤ) {r : ℚ} (hP : 0 ≤ (P : ℚ))
    (hr : 0 ≤ r) {n g : ℕ} (hg : g < n) :
    List.Chain' (fun a b : ℚ => b ≤ a)
      ((generateGraceSchedule (P : ℚ) r n g "EPI").map Row.balance) := by
  rw [generateGraceSchedule_epi_def, List.map_append]
  set M := calcEqualPrincipalInterestPayment (P : ℚ) r (n - g) with hMdef
  have hM : 0 ≤ M := by rw [hMdef]; exact calcPayment_nonneg hP hr (n - g)
  have hseed : annuityBalance r M (n - g) = (P : ℚ) := by
    rw [hMdef]; exact annuityBalance_total _ hr (by omega)
  apply List.Chain'.append
  · rw [graceRowsOf_balance_map]
    exact chain'_ge_range_map (fun _ => (P : ℚ)) (fun _ => le_refl _) g
  · rw [show (P : ℚ) = annuityBalance r M (n - g) from hseed.symm]
    exact epiAux_chain hr hM (n - g) (g + 1)
  · intro x hx y hy
    rw [graceRowsOf_balance_map] at hx
    rcases Nat.eq_zero_or_pos g with hg0 | hg1
    · subst hg0; simp at hx
    · rw [getLast?_range_map_const _ hg1] at hx
      have hxP : x = (P : ℚ) := by simpa using hx.symm
      rw [show (P : ℚ) = annuityBalance r M (n - g) from hseed.symm,
        epiAux_head_balance hr hM (by omega)] at hy
      have hyv : y = roundWon (annuityBalance r M (n - g - 1)) := by
        simpa using hy.symm
      have hmono : roundWon (annuityBalance r M (n - g - 1)) ≤
          roundWon (annuityBalance r M (n - g)) :=
        roundWon_mono (annuityBalance_mono hr hM (by omega))
      rw [hseed, roundWon_intCast] at hmono
      rw [hxP, hyv]
      exact hmono

theorem generateGraceSchedule_ep_chain (P : ℤ) {r : ℚ} (hP : 0 ≤ (P : ℚ))
    {n g : ℕ} (hg : g < n) :
    List.Chain' (fun a b : ℚ => b ≤ a)
      ((generateGraceSchedule (P : ℚ) r n g "EP").map Row.balance) := by
  rw [generateGraceSchedule_ep_def, List.map_append]
  set mp := (P : ℚ) / ((n - g : ℕ) : ℚ) with hmpdef
  have hmp : 0 ≤ mp := by
    rw [hmpdef]; exact div_nonneg hP (Nat.cast_nonneg _)
  have hseed : ((n - g : ℕ) : ℚ) * mp = (P : ℚ) := by
    rw [hmpdef, mul_div_cancel₀]
    exact_mod_cast (by omega : n - g ≠ 0)
  apply List.Chain'.append
  · rw [graceRowsOf_balance_map]
    exact chain'_ge_range_map (fun _ => (P : ℚ)) (fun _ => le_refl _) g
  · rw [show (P : ℚ) = ((n - g : ℕ) : ℚ) * mp from hseed.symm]
    exact epAux_chain r hmp (n - g) (g + 1)
  · intro x hx y hy
    rw [graceRowsOf_balance_map] at hx
    rcases Nat.eq_zero_or_pos g with hg0 | hg1
    · subst hg0; simp at hx
    · rw [getLast?_range_map_const _ hg1] at hx
      have hxP : x = (P : ℚ) := by simpa using hx.symm
      rw [show (P : ℚ) = ((n - g : ℕ) : ℚ) * mp from hseed.symm,
        epAux_head_balance r hmp (by omega)] at hy
      have hyv : y = roundWon (((n - g - 1 : ℕ) : ℚ) * mp) := by
        simpa using hy.symm
      have hle : ((n - g - 1 : ℕ) : ℚ) * mp ≤ ((n - g : ℕ) : ℚ) * mp := by
        have : ((n - g - 1 : ℕ) : ℚ) ≤ ((n - g : ℕ) : ℚ) := by
          exact_mod_cast Nat.sub_le (n - g) 1
        exact mul_le_mul_of_nonneg_right this hmp
      have hmono := roundWon_mono hle
      rw [hseed, roundWon_intCast] at hmono
      rw [hxP, hyv]
      exact hmono

end LoanCalc

namespace LoanCalc

/-! ### Claim C1 -/

/-- Claim C1 as stated is refuted when "the rounding tolerance" denotes the
repository's validation tolerance (`CONFIG.toleranceWon = 10` won, the bound
`validateSchedule` itself applies to `Σ principal`): for the Equal-Principal
policy on principal 100005, rate 0, term 30, every period's unrounded
principal is 3333.5, which `Math.round` rounds up, so the emitted principal
components sum to 100020 — 15 won away from the principal, beyond the
10-won tolerance. -/
theorem c1_counterexample :
    ((generateSchedule "equalPrincipal" 100005 0 30 0).map Row.principal).sum =
        100020 ∧
      ¬ (|((generateSchedule "equalPrincipal" 100005 0 30 0).map
          Row.principal).sum - 100005| ≤ toleranceWon) := by
  have hsum : ((generateSchedule "equalPrincipal" 100005 0 30 0).map
      Row.principal).sum = 100020 := by
    rw [generateSchedule_ep]
    norm_num [generateEPSchedule, epAux_cons, epAux_nil, roundWon_eq,
      getMonthlyRate, max_def]
  refine ⟨hsum, ?_⟩
  rw [hsum, toleranceWon]
  norm_num

/-- Claim C1, amended: for every one of the five repayment policies, principal
`P > 0`, annual rate `≥ 0`, term `n ≥ 1` and grace `g < n`, the emitted
principal components sum to `P` within the accumulated rounding tolerance of
half a won per period (`n/2` won in total, rather than the fixed 10-won
validation tolerance), and the final record's balance equals 0 exactly. -/
theorem c1_theorem (tag : String) (htag : tag ∈ repaymentTags) {P rate : ℚ}
    (hP : 0 < P) (hrate : 0 ≤ rate) {n g : ℕ} (hn : 1 ≤ n) (hg : g < n) :
    |((generateSchedule tag P rate n g).map Row.principal).sum - P| ≤
        (n : ℚ) / 2 ∧
      ((generateSchedule tag P rate n g).map Row.balance).getLast? =
        some 0 := by
  have hr : 0 ≤ getMonthlyRate rate := getMonthlyRate_nonneg hrate
  have hP' : 0 ≤ P := le_of_lt hP
  simp only [repaymentTags, List.mem_cons, List.not_mem_nil, or_false]
    at htag
  rcases htag with rfl | rfl | rfl | rfl | rfl
  · rw [generateSchedule_epi]
    exact ⟨generateEPISchedule_sum hP' hr hn, generateEPISchedule_last _ _ hn⟩
  · rw [generateSchedule_ep]
    exact ⟨generateEPSchedule_sum hP' hn, generateEPSchedule_last _ _ hn⟩
  · rw [generateSchedule_bullet]
    refine ⟨?_, bullet_getLast_balance _ _ hn⟩
    rw [bullet_sum_principal _ _ hn]
    simp only [sub_self, abs_zero]
    positivity
  · rw [generateSchedule_grace_epi]
    exact ⟨generateGraceSchedule_epi_sum hP' hr hg,
      generateGraceSchedule_epi_last _ _ hg⟩
  · rw [generateSchedule_grace_ep]
    exact ⟨generateGraceSchedule_ep_sum hP' hg,
      generateGraceSchedule_ep_last _ _ hg⟩

/-- Concrete instantiation of the amended claim C1 (bullet policy,
`P = 100000`, annual rate 5%, 12 months). -/
theorem c1_witness :
    "bullet" ∈ repaymentTags ∧ (0 : ℚ) < 100000 ∧ (0 : ℚ) ≤ 5 ∧
      (1 ≤ 12 ∧ 0 < 12) ∧
      (|((generateSchedule "bullet" 100000 5 12 0).map Row.principal).sum -
          100000| ≤ ((12 : ℕ) : ℚ) / 2 ∧
        ((generateSchedule "bullet" 100000 5 12 0).map Row.balance).getLast? =
          some 0) :=
  ⟨by decide, by norm_num, by norm_num, ⟨by norm_num, by norm_num⟩,
    c1_theorem "bullet" (by decide) (by norm_num) (by norm_num)
      (by norm_num) (by norm_num)⟩

end LoanCalc

namespace LoanCalc

/-! ### Dispatch lemmas for `calculate` -/

theorem calculate_epi_def (P rate : ℚ) (n g : ℕ) :
    calculate "equalPrincipalInterest" P rate n g =
      calculateEqualPrincipalInterest P rate n := rfl

theorem calculate_ep_def (P rate : ℚ) (n g : ℕ) :
    calculate "equalPrincipal" P rate n g =
      calculateEqualPrincipal P rate n := rfl

theorem calculate_bullet_def (P rate : ℚ) (n g : ℕ) :
    calculate "bullet" P rate n g = calculateBullet P rate n := rfl

theorem calculate_grace_epi_def (P rate : ℚ) (n g : ℕ) :
    calculate "graceEqualPrincipalInterest" P rate n g =
      calculateGraceEqualPrincipalInterest P rate n g := rfl

theorem calculate_grace_ep_def (P rate : ℚ) (n g : ℕ) :
    calculate "graceEqualPrincipal" P rate n g =
      calculateGraceEqualPrincipal P rate n g := rfl

theorem generateSchedule_default {tag : String} (h : tag ∉ repaymentTags)
    (P rate : ℚ) (n g : ℕ) :
    generateSchedule tag P rate n g =
      generateEPISchedule P (getMonthlyRate rate) n := by
  simp only [repaymentTags, List.mem_cons, List.not_mem_nil, or_false,
    not_or] at h
  obtain ⟨h1, h2, h3, h4, h5⟩ := h
  unfold generateSchedule
  rw [if_neg h1, if_neg h2, if_neg h3, if_neg h4, if_neg h5]

theorem calculate_default {tag : String} (h : tag ∉ repaymentTags)
    (P rate : ℚ) (n g : ℕ) :
    calculate tag P rate n g = calculateEqualPrincipalInterest P rate n := by
  simp only [repaymentTags, List.mem_cons, List.not_mem_nil, or_false,
    not_or] at h
  obtain ⟨h1, h2, h3, h4, h5⟩ := h
  unfold calculate
  rw [if_neg h1, if_neg h2, if_neg h3, if_neg h4, if_neg h5]

theorem summarizeSchedule_firstPayment (a : Row) (l : List Row) (P : ℚ) :
    (summarizeSchedule (a :: l) P).firstPayment = roundWon a.payment := rfl

/-! ### Claim C2 -/

/-- Claim C2: for every non-empty schedule and every `originalPrincipal`,
`summarizeSchedule` derives `totalInterest` as `round(Σ payment) -
originalPrincipal` (keeping the directly summed per-period interest only in
`rawInterestSum`), so `totalPayment = originalPrincipal + totalInterest`
holds exactly. -/
theorem c2_theorem (schedule : List Row) (hne : schedule ≠ []) (P : ℚ) :
    (summarizeSchedule schedule P).totalInterest =
        roundWon ((schedule.map Row.payment).sum) - P ∧
      (summarizeSchedule schedule P).totalPayment =
        P + (summarizeSchedule schedule P).totalInterest ∧
      (summarizeSchedule schedule P).rawInterestSum =
        roundWon ((schedule.map Row.interest).sum) := by
  obtain ⟨a, rest, rfl⟩ := List.exists_cons_of_ne_nil hne
  refine ⟨rfl, ?_, rfl⟩
  show roundWon (((a :: rest).map Row.payment).sum) =
    P + (roundWon (((a :: rest).map Row.payment).sum) - P)
  ring

/-- Concrete instantiation of claim C2 on a one-row schedule. -/
theorem c2_witness :
    (([⟨1, 110, 100, 10, 0, false, ""⟩] : List Row) ≠ []) ∧
      ((summarizeSchedule [⟨1, 110, 100, 10, 0, false, ""⟩] 100).totalInterest =
          roundWon ((([⟨1, 110, 100, 10, 0, false, ""⟩] : List Row).map
            Row.payment).sum) - 100 ∧
        (summarizeSchedule [⟨1, 110, 100, 10, 0, false, ""⟩] 100).totalPayment =
          100 + (summarizeSchedule [⟨1, 110, 100, 10, 0, false, ""⟩]
            100).totalInterest ∧
        (summarizeSchedule [⟨1, 110, 100, 10, 0, false, ""⟩]
            100).rawInterestSum =
          roundWon ((([⟨1, 110, 100, 10, 0, false, ""⟩] : List Row).map
            Row.interest).sum)) :=
  ⟨List.cons_ne_nil _ _,
    c2_theorem [⟨1, 110, 100, 10, 0, false, ""⟩] (List.cons_ne_nil _ _) 100⟩

/-! ### Claim C3 -/

/-- Claim C3: for `0 < g < n`, the Grace+Equal-Payment schedule consists of
`g` interest-only records (principal 0, balance `P`, `isGracePeriod = true`,
payment = interest = `round(P·periodRate)`), followed by exactly the
stand-alone Equal-Payment schedule for the same principal and rate with term
`n - g`, with every month index offset by `g`. -/
theorem c3_theorem (P rate : ℚ) (n g : ℕ) (hg0 : 0 < g) (hgn : g < n) :
    (generateSchedule "graceEqualPrincipalInterest" P rate n g).take g =
        (List.range g).map (fun j =>
          { month := j + 1
            payment := roundWon (P * getMonthlyRate rate)
            principal := 0
            interest := roundWon (P * getMonthlyRate rate)
            balance := P
            isGracePeriod := true : Row }) ∧
      (generateSchedule "graceEqualPrincipalInterest" P rate n g).drop g =
        (generateSchedule "equalPrincipalInterest" P rate (n - g) 0).map
          (shiftMonth g) := by
  constructor
  · rw [generateSchedule_grace_epi, generateGraceSchedule_epi_def,
      List.take_left' (graceRowsOf_length P _ g)]
    rfl
  · rw [generateSchedule_grace_epi, generateGraceSchedule_epi_def,
      List.drop_left' (graceRowsOf_length P _ g), generateSchedule_epi,
      generateEPISchedule, ← epiAux_month_shift]

/-- Concrete instantiation of claim C3 (`P = 100000`, rate 0, `n = 2`,
`g = 1`). -/
theorem c3_witness :
    0 < 1 ∧ 1 < 2 ∧
      ((generateSchedule "graceEqualPrincipalInterest" 100000 0 2 1).take 1 =
          (List.range 1).map (fun j =>
            { month := j + 1
              payment := roundWon (100000 * getMonthlyRate 0)
              principal := 0
              interest := roundWon (100000 * getMonthlyRate 0)
              balance := 100000
              isGracePeriod := true : Row }) ∧
        (generateSchedule "graceEqualPrincipalInterest" 100000 0 2 1).drop 1 =
          (generateSchedule "equalPrincipalInterest" 100000 0 (2 - 1) 0).map
            (shiftMonth 1)) :=
  ⟨by norm_num, by norm_num, c3_theorem 100000 0 2 1 (by norm_num) (by norm_num)⟩

end LoanCalc

namespace LoanCalc

/-! ### Claim C4 -/

/-- Claim C4: the bullet schedule uses the single value `round(P·periodRate)`
as the interest of every period (including the last); every period before the
last has principal 0, payment equal to that interest, and balance `P`; the
final period has principal `P`, payment `P + round(P·periodRate)`, and
balance 0. -/
theorem c4_theorem (P r : ℚ) {n : ℕ} (hn : 1 ≤ n) :
    (∀ j < n, j + 1 ≠ n →
      (generateBulletSchedule P r n)[j]? =
        some { month := j + 1
               payment := roundWon (P * r)
               principal := 0
               interest := roundWon (P * r)
               balance := P
               note := "이자만납부" }) ∧
      (generateBulletSchedule P r n)[n - 1]? =
        some { month := n
               payment := P + roundWon (P * r)
               principal := P
               interest := roundWon (P * r)
               balance := 0
               note := "만기일시상환" } := by
  constructor
  · intro j hj hne
    unfold generateBulletSchedule
    rw [List.getElem?_map, List.getElem?_range hj]
    simp [hne]
  · unfold generateBulletSchedule
    rw [List.getElem?_map, List.getElem?_range (by omega : n - 1 < n)]
    have hlast : n - 1 + 1 = n := by omega
    simp [hlast]

/-- Concrete instantiation of claim C4 at the spec's example: `P` = 300
million won, 4.5% annual rate (period rate `getMonthlyRate (9/2)`), 360
months; the constant interest is 1,125,000 won and the balloon payment is
301,125,000 won. -/
theorem c4_witness :
    1 ≤ 360 ∧
      ((∀ j < 360, j + 1 ≠ 360 →
        (generateBulletSchedule 300000000 (getMonthlyRate (9 / 2)) 360)[j]? =
          some { month := j + 1
                 payment := roundWon (300000000 * getMonthlyRate (9 / 2))
                 principal := 0
                 interest := roundWon (300000000 * getMonthlyRate (9 / 2))
                 balance := 300000000
                 note := "이자만납부" }) ∧
        (generateBulletSchedule 300000000
            (getMonthlyRate (9 / 2)) 360)[360 - 1]? =
          some { month := 360
                 payment := 300000000 + roundWon
                   (300000000 * getMonthlyRate (9 / 2))
                 principal := 300000000
                 interest := roundWon (300000000 * getMonthlyRate (9 / 2))
                 balance := 0
                 note := "만기일시상환" }) ∧
      roundWon (300000000 * getMonthlyRate (9 / 2)) = 1125000 ∧
      300000000 + roundWon (300000000 * getMonthlyRate (9 / 2)) = 301125000 :=
  ⟨by norm_num, c4_theorem 300000000 (getMonthlyRate (9 / 2)) (by norm_num),
    by norm_num [roundWon_eq, getMonthlyRate],
    by norm_num [roundWon_eq, getMonthlyRate]⟩

end LoanCalc

namespace LoanCalc

/-! ### Claim C5 -/

theorem exists_int_of_den_eq_one {x : ℚ} (h : x.den = 1) :
    ∃ z : ℤ, x = (z : ℚ) := by
  refine ⟨x.num, ?_⟩
  conv_lhs => rw [← Rat.num_div_den x]
  rw [h]
  norm_num

/-- Claim C5 as stated (every emitted numeric field is a whole integer for
EVERY input) is refuted: the bullet generator passes the principal through to
the `payment`, `principal` and `balance` fields unrounded, so a fractional
principal of 1/2 won yields a fractional payment of 1/2 in the final balloon
record. -/
theorem c5_counterexample :
    ¬ (∀ row ∈ generateSchedule "bullet" (1 / 2) 0 1 0,
        (∃ z : ℤ, row.payment = (z : ℚ)) ∧
          (∃ z : ℤ, row.principal = (z : ℚ)) ∧
          (∃ z : ℤ, row.interest = (z : ℚ)) ∧
          (∃ z : ℤ, row.balance = (z : ℚ))) := by
  have hsch : generateSchedule "bullet" (1 / 2) 0 1 0 =
      [{ month := 1, payment := 1 / 2, principal := 1 / 2, interest := 0,
         balance := 0, note := "만기일시상환" }] := by
    rw [generateSchedule_bullet]
    norm_num [generateBulletSchedule, List.range_succ, roundWon_eq,
      getMonthlyRate]
  intro h
  have hmem := h _ (hsch ▸ List.mem_singleton.mpr rfl)
  rcases hmem.1 with ⟨z, hz⟩
  have h2 : (2 : ℚ) * (z : ℚ) = 1 := by
    rw [← hz]
    norm_num
  have h3 : (2 : ℤ) * z = 1 := by exact_mod_cast h2
  omega

/-- Claim C5, amended: provided the principal is a whole number of won (as
all validated inputs are), every numeric field emitted in a period record by
any of the five generators is a whole integer.  (The equal-payment and
equal-principal loops round every field unconditionally; the bullet and
grace-period records pass the integral principal through unrounded.) -/
theorem c5_theorem (tag : String) (htag : tag ∈ repaymentTags) (P : ℤ)
    (rate : ℚ) (n g : ℕ) :
    ∀ row ∈ generateSchedule tag (P : ℚ) rate n g,
      (∃ z : ℤ, row.payment = (z : ℚ)) ∧
        (∃ z : ℤ, row.principal = (z : ℚ)) ∧
        (∃ z : ℤ, row.interest = (z : ℚ)) ∧
        (∃ z : ℤ, row.balance = (z : ℚ)) := by
  simp only [repaymentTags, List.mem_cons, List.not_mem_nil, or_false]
    at htag
  rcases htag with rfl | rfl | rfl | rfl | rfl <;> intro row hmem
  · rw [generateSchedule_epi, generateEPISchedule] at hmem
    obtain ⟨h1, h2, h3, h4⟩ := epiAux_mem_den _ _ _ _ _ row hmem
    exact ⟨exists_int_of_den_eq_one h1, exists_int_of_den_eq_one h2,
      exists_int_of_den_eq_one h3, exists_int_of_den_eq_one h4⟩
  · rw [generateSchedule_ep, generateEPSchedule] at hmem
    obtain ⟨h1, h2, h3, h4⟩ := epAux_mem_den _ _ _ _ _ row hmem
    exact ⟨exists_int_of_den_eq_one h1, exists_int_of_den_eq_one h2,
      exists_int_of_den_eq_one h3, exists_int_of_den_eq_one h4⟩
  · rw [generateSchedule_bullet] at hmem
    obtain ⟨h1, h2, h3, h4⟩ := bullet_mem_den _ P _ row hmem
    exact ⟨exists_int_of_den_eq_one h1, exists_int_of_den_eq_one h2,
      exists_int_of_den_eq_one h3, exists_int_of_den_eq_one h4⟩
  · rw [generateSchedule_grace_epi, generateGraceSchedule_epi_def] at hmem
    rcases List.mem_append.mp hmem with hgr | hrep
    · obtain ⟨h1, h2, h3, h4⟩ := graceRowsOf_mem_den _ P _ row hgr
      exact ⟨exists_int_of_den_eq_one h1, exists_int_of_den_eq_one h2,
        exists_int_of_den_eq_one h3, exists_int_of_den_eq_one h4⟩
    · obtain ⟨h1, h2, h3, h4⟩ := epiAux_mem_den _ _ _ _ _ row hrep
      exact ⟨exists_int_of_den_eq_one h1, exists_int_of_den_eq_one h2,
        exists_int_of_den_eq_one h3, exists_int_of_den_eq_one h4⟩
  · rw [generateSchedule_grace_ep, generateGraceSchedule_ep_def] at hmem
    rcases List.mem_append.mp hmem with hgr | hrep
    · obtain ⟨h1, h2, h3, h4⟩ := graceRowsOf_mem_den _ P _ row hgr
      exact ⟨exists_int_of_den_eq_one h1, exists_int_of_den_eq_one h2,
        exists_int_of_den_eq_one h3, exists_int_of_den_eq_one h4⟩
    · obtain ⟨h1, h2, h3, h4⟩ := epAux_mem_den _ _ _ _ _ row hrep
      exact ⟨exists_int_of_den_eq_one h1, exists_int_of_den_eq_one h2,
        exists_int_of_den_eq_one h3, exists_int_of_den_eq_one h4⟩

/-- Concrete instantiation of the amended claim C5: the first record of the
bullet schedule on integral principal 100000, rate 0, 2 months. -/
theorem c5_witness :
    ("bullet" ∈ repaymentTags) ∧
      Row.mk 1 0 0 0 100000 false "이자만납부" ∈
        generateSchedule "bullet" ((100000 : ℤ) : ℚ) 0 2 0 ∧
      ((∃ z : ℤ, (Row.mk 1 0 0 0 100000 false "이자만납부").payment = (z : ℚ)) ∧
        (∃ z : ℤ,
          (Row.mk 1 0 0 0 100000 false "이자만납부").principal = (z : ℚ)) ∧
        (∃ z : ℤ,
          (Row.mk 1 0 0 0 100000 false "이자만납부").interest = (z : ℚ)) ∧
        (∃ z : ℤ,
          (Row.mk 1 0 0 0 100000 false "이자만납부").balance = (z : ℚ))) := by
  have hsch : generateSchedule "bullet" ((100000 : ℤ) : ℚ) 0 2 0 =
      [Row.mk 1 0 0 0 100000 false "이자만납부",
        Row.mk 2 100000 100000 0 0 false "만기일시상환"] := by
    rw [generateSchedule_bullet]
    norm_num [generateBulletSchedule, List.range_succ, roundWon_eq,
      getMonthlyRate]
  have hmem : Row.mk 1 0 0 0 100000 false "이자만납부" ∈
      generateSchedule "bullet" ((100000 : ℤ) : ℚ) 0 2 0 := by
    rw [hsch]
    exact List.mem_cons_self _ _
  exact ⟨by decide, hmem,
    c5_theorem "bullet" (by decide) 100000 0 2 0 _ hmem⟩

end LoanCalc

namespace LoanCalc

/-! ### Claim C6 -/

/-- Claim C6 as stated is refuted: the grace-period records emit the raw
(unrounded) principal as their balance while the repayment records emit
rounded balances, so a fractional principal of 0.9 won at 30% annual rate
over 4 months with 1 grace month yields the balance sequence
`[9/10, 1, 0, 0]`, which increases from the grace record to the first
repayment record. -/
theorem c6_counterexample :
    ¬ (List.Chain' (fun a b : ℚ => b ≤ a)
        ((generateSchedule "graceEqualPrincipalInterest"
          (9 / 10) 30 4 1).map Row.balance) ∧
      ((generateSchedule "graceEqualPrincipalInterest"
          (9 / 10) 30 4 1).map Row.balance).getLast? = some 0) := by
  have hbal : (generateSchedule "graceEqualPrincipalInterest"
      (9 / 10) 30 4 1).map Row.balance = [9 / 10, 1, 0, 0] := by
    rw [generateSchedule_grace_epi, generateGraceSchedule_epi_def]
    norm_num [graceRowsOf, calcEqualPrincipalInterestPayment, epiAux_cons,
      epiAux_nil, getMonthlyRate, roundWon_eq, max_def, List.range_succ]
  rintro ⟨hchain, -⟩
  rw [hbal] at hchain
  norm_num [List.chain'_cons] at hchain

/-- Claim C6, amended: provided the principal is a whole number of won, for
every one of the five policies with rate in `[0, 30]`, term in `[1, 600]` and
grace `g < n`, the emitted balance fields are monotonically non-increasing
and the final record's balance is exactly 0. -/
theorem c6_theorem (tag : String) (htag : tag ∈ repaymentTags) (P : ℤ)
    (hP : 0 < P) {rate : ℚ} (hr0 : 0 ≤ rate) (hr30 : rate ≤ 30) {n g : ℕ}
    (hn1 : 1 ≤ n) (hn600 : n ≤ 600) (hg : g < n) :
    List.Chain' (fun a b : ℚ => b ≤ a)
        ((generateSchedule tag (P : ℚ) rate n g).map Row.balance) ∧
      ((generateSchedule tag (P : ℚ) rate n g).map Row.balance).getLast? =
        some 0 := by
  have hr : 0 ≤ getMonthlyRate rate := getMonthlyRate_nonneg hr0
  have hPq : (0 : ℚ) ≤ (P : ℚ) := by exact_mod_cast hP.le
  simp only [repaymentTags, List.mem_cons, List.not_mem_nil, or_false]
    at htag
  rcases htag with rfl | rfl | rfl | rfl | rfl
  · rw [generateSchedule_epi]
    exact ⟨generateEPISchedule_chain hPq hr hn1,
      generateEPISchedule_last _ _ hn1⟩
  · rw [generateSchedule_ep]
    exact ⟨generateEPSchedule_chain hPq hn1, generateEPSchedule_last _ _ hn1⟩
  · rw [generateSchedule_bullet]
    exact ⟨bullet_chain _ hPq n, bullet_getLast_balance _ _ hn1⟩
  · rw [generateSchedule_grace_epi]
    exact ⟨generateGraceSchedule_epi_chain P hPq hr hg,
      generateGraceSchedule_epi_last _ _ hg⟩
  · rw [generateSchedule_grace_ep]
    exact ⟨generateGraceSchedule_ep_chain P hPq hg,
      generateGraceSchedule_ep_last _ _ hg⟩

/-- Concrete instantiation of the amended claim C6 (grace equal-payment
policy, integral principal 1,000,000 won, 6% annual rate, 12 months with 3
grace months). -/
theorem c6_witness :
    ("graceEqualPrincipalInterest" ∈ repaymentTags) ∧ (0 : ℤ) < 1000000 ∧
      ((0 : ℚ) ≤ 6 ∧ (6 : ℚ) ≤ 30) ∧ (1 ≤ 12 ∧ 12 ≤ 600 ∧ 3 < 12) ∧
      (List.Chain' (fun a b : ℚ => b ≤ a)
          ((generateSchedule "graceEqualPrincipalInterest"
            ((1000000 : ℤ) : ℚ) 6 12 3).map Row.balance) ∧
        ((generateSchedule "graceEqualPrincipalInterest"
            ((1000000 : ℤ) : ℚ) 6 12 3).map Row.balance).getLast? =
          some 0) :=
  ⟨by decide, by decide, ⟨by norm_num, by norm_num⟩,
    ⟨by norm_num, by norm_num, by norm_num⟩,
    c6_theorem "graceEqualPrincipalInterest" (by decide) 1000000 (by decide)
      (by norm_num) (by norm_num) (by norm_num) (by norm_num) (by norm_num)⟩

end LoanCalc

namespace LoanCalc

/-! ### Claim C7 -/

theorem ite_singleton_eq_nil_iff {c : Prop} [Decidable c] (s : String) :
    ((if c then [s] else []) = []) ↔ ¬c := by
  split_ifs with h <;> simp [h]

/-- Claim C7: `validateInputs` returns `valid = true` exactly when the
principal is in `[100000, 10^10]`, the term in `[1, 600]`, the rate in
`[0, 30]`, the grace in `[0, 120]` and grace `<` term; whenever `valid` is
`false` at least one error message is returned.  (The function only inspects
its arguments and builds the message list — no schedule is generated.) -/
theorem c7_theorem (principal annualRate months graceMonths : ℚ) :
    ((validateInputs principal annualRate months graceMonths).valid = true ↔
      (100000 ≤ principal ∧ principal ≤ 10000000000 ∧ 1 ≤ months ∧
        months ≤ 600 ∧ 0 ≤ annualRate ∧ annualRate ≤ 30 ∧ 0 ≤ graceMonths ∧
        graceMonths ≤ 120 ∧ graceMonths < months)) ∧
    ((validateInputs principal annualRate months graceMonths).valid = false →
      (validateInputs principal annualRate months graceMonths).errors ≠
        []) := by
  constructor
  · show (List.isEmpty _ = true) ↔ _
    rw [List.isEmpty_iff]
    simp only [List.append_eq_nil, ite_singleton_eq_nil_iff, not_or,
      not_lt, not_le]
    constructor
    · rintro ⟨⟨⟨⟨⟨a1, a2⟩, a3, a4⟩, a5, a6⟩, a7, a8⟩, a9⟩
      exact ⟨a1, a2, a3, a4, a5, a6, a7, a8, a9⟩
    · rintro ⟨a1, a2, a3, a4, a5, a6, a7, a8, a9⟩
      exact ⟨⟨⟨⟨⟨a1, a2⟩, a3, a4⟩, a5, a6⟩, a7, a8⟩, a9⟩
  · intro hfalse hnil
    have hv : (validateInputs principal annualRate months graceMonths).valid =
        (validateInputs principal annualRate months graceMonths).errors.isEmpty
      := rfl
    rw [hv, hnil] at hfalse
    simp at hfalse

/-- Concrete instantiation of claim C7: a principal of 50,000 won is below
the minimum, so validation fails with a nonempty error list. -/
theorem c7_witness :
    (validateInputs 50000 5 12 0).valid = false ∧
      (validateInputs 50000 5 12 0).errors ≠ [] := by
  have hv : (validateInputs 50000 5 12 0).valid = false := by
    norm_num [validateInputs]
  exact ⟨hv, (c7_theorem 50000 5 12 0).2 hv⟩

/-! ### Claim C8 -/

/-- Claim C8: for every policy tag that is not one of the five recognized
tags, `calculate` returns exactly the result of
`calculate "equalPrincipalInterest"` on the same parameters, and
`generateSchedule` returns exactly the Equal-Payment schedule — the fallback
is the Equal-Payment policy, not an error or an empty result. -/
theorem c8_theorem {tag : String} (htag : tag ∉ repaymentTags) (P rate : ℚ)
    (n g : ℕ) :
    calculate tag P rate n g = calculate "equalPrincipalInterest" P rate n g ∧
      generateSchedule tag P rate n g =
        generateSchedule "equalPrincipalInterest" P rate n g := by
  constructor
  · rw [calculate_default htag, calculate_epi_def]
  · rw [generateSchedule_default htag, generateSchedule_epi]

/-- Concrete instantiation of claim C8 with the unrecognized tag "foo". -/
theorem c8_witness :
    ("foo" ∉ repaymentTags) ∧
      (calculate "foo" 1000000 5 12 0 =
          calculate "equalPrincipalInterest" 1000000 5 12 0 ∧
        generateSchedule "foo" 1000000 5 12 0 =
          generateSchedule "equalPrincipalInterest" 1000000 5 12 0) :=
  ⟨by decide, c8_theorem (by decide) 1000000 5 12 0⟩

end LoanCalc

namespace LoanCalc

/-! ### Claim C9 -/

/-- Claim C9 as stated (`monthlyPayment` equals `P / n` exactly) is refuted:
the payment is rounded to a whole won, so for `P = 100000`, rate 0, `n = 3`,
`monthlyPayment` is 33333, not the rational `100000 / 3`. -/
theorem c9_counterexample :
    (calculate "equalPrincipalInterest" 100000 0 3 0).monthlyPayment =
        33333 ∧
      (33333 : ℚ) ≠ 100000 / 3 := by
  constructor
  · rw [calculate_epi_def]
    norm_num [calculateEqualPrincipalInterest, generateEPISchedule,
      calcEqualPrincipalInterestPayment, epiAux_cons, epiAux_nil,
      getMonthlyRate, summarizeSchedule, roundWon_eq, max_def]
  · norm_num

/-- Claim C9, amended: for the Equal-Payment policy with rate 0, the
`monthlyPayment` of `calculate` equals `round(P / n)` — i.e. `P / n` rounded
to a whole won, which is `P / n` exactly whenever `n` divides `P`. -/
theorem c9_theorem (P : ℚ) {n : ℕ} (hn : 1 ≤ n) :
    (calculate "equalPrincipalInterest" P 0 n 0).monthlyPayment =
      roundWon (P / (n : ℚ)) := by
  rw [calculate_epi_def]
  obtain ⟨k, rfl⟩ : ∃ k, n = k + 1 := ⟨n - 1, by omega⟩
  show (summarizeSchedule
      (generateEPISchedule P (getMonthlyRate 0) (k + 1)) P).firstPayment = _
  have hr0 : getMonthlyRate 0 = 0 := by norm_num [getMonthlyRate]
  rw [hr0, generateEPISchedule, epiAux_cons, summarizeSchedule_firstPayment]
  cases k with
  | zero =>
    show roundWon (roundWon ((if 0 = 0 then P else
        calcEqualPrincipalInterestPayment P 0 1 - P * 0) + P * 0)) = _
    rw [if_pos rfl, roundWon_roundWon]
    norm_num
  | succ k' =>
    show roundWon (roundWon ((if k' + 1 = 0 then P else
        calcEqualPrincipalInterestPayment P 0 (k' + 2) - P * 0) + P * 0)) = _
    rw [if_neg (Nat.succ_ne_zero k'), roundWon_roundWon,
      calcEqualPrincipalInterestPayment, if_neg (by omega), if_pos rfl]
    norm_num
    congr 1
    push_cast
    ring

/-- Concrete instantiation of the amended claim C9 (`P = 100000`, `n = 3`). -/
theorem c9_witness :
    1 ≤ 3 ∧
      (calculate "equalPrincipalInterest" 100000 0 3 0).monthlyPayment =
        roundWon ((100000 : ℚ) / ((3 : ℕ) : ℚ)) :=
  ⟨by norm_num, c9_theorem 100000 (by norm_num)⟩

/-! ### Claim C10 -/

/-- Claim C10: for every policy tag (recognized or not) the summary figures
embedded in the `LoanResult` of `calculate` coincide with the fields of
`summarizeSchedule` applied to the schedule `generateSchedule` returns for
the same tag and parameters — both entry points derive their figures from
the same generated schedule. -/
theorem c10_theorem (tag : String) (P rate : ℚ) (n g : ℕ) (hn : 1 ≤ n) :
    (calculate tag P rate n g).firstPayment =
        (summarizeSchedule (generateSchedule tag P rate n g) P).firstPayment ∧
      (calculate tag P rate n g).lastPayment =
        (summarizeSchedule (generateSchedule tag P rate n g) P).lastPayment ∧
      (calculate tag P rate n g).maxPayment =
        (summarizeSchedule (generateSchedule tag P rate n g) P).maxPayment ∧
      (calculate tag P rate n g).avgPayment =
        (summarizeSchedule (generateSchedule tag P rate n g) P).avgPayment ∧
      (calculate tag P rate n g).totalInterest =
        (summarizeSchedule (generateSchedule tag P rate n g) P).totalInterest ∧
      (calculate tag P rate n g).totalPayment =
        (summarizeSchedule (generateSchedule tag P rate n g) P).totalPayment := by
  unfold calculate generateSchedule calculateEqualPrincipalInterest
    calculateEqualPrincipal calculateBullet
    calculateGraceEqualPrincipalInterest calculateGraceEqualPrincipal
  split_ifs <;> exact ⟨rfl, rfl, rfl, rfl, rfl, rfl⟩

/-- Concrete instantiation of claim C10 (bullet policy,
`P = 2,000,000`, 4% annual rate, 24 months). -/
theorem c10_witness :
    1 ≤ 24 ∧
      ((calculate "bullet" 2000000 4 24 0).firstPayment =
        (summarizeSchedule (generateSchedule "bullet" 2000000 4 24 0)
          2000000).firstPayment ∧
      (calculate "bullet" 2000000 4 24 0).lastPayment =
        (summarizeSchedule (generateSchedule "bullet" 2000000 4 24 0)
          2000000).lastPayment ∧
      (calculate "bullet" 2000000 4 24 0).maxPayment =
        (summarizeSchedule (generateSchedule "bullet" 2000000 4 24 0)
          2000000).maxPayment ∧
      (calculate "bullet" 2000000 4 24 0).avgPayment =
        (summarizeSchedule (generateSchedule "bullet" 2000000 4 24 0)
          2000000).avgPayment ∧
      (calculate "bullet" 2000000 4 24 0).totalInterest =
        (summarizeSchedule (generateSchedule "bullet" 2000000 4 24 0)
          2000000).totalInterest ∧
      (calculate "bullet" 2000000 4 24 0).totalPayment =
        (summarizeSchedule (generateSchedule "bullet" 2000000 4 24 0)
          2000000).totalPayment) :=
  ⟨by norm_num, c10_theorem "bullet" 2000000 4 24 0 (by norm_num)⟩

end LoanCalc
